import Mathlib

/-!
Shallow embedding of `app.py` (regression-graph-generator), a Streamlit app
that parses per-segment regression equations, evaluates acquisition and
N-CPA (cost-per-acquisition = spend / new-user volume) curves over sampled
domains, and assembles Plotly traces.

Modelling conventions:
- Python floats are modelled as `ℚ` wherever the code only parses, stores
  and compares table values (equation parsing, data-frame plumbing), and as
  `ℝ` wherever transcendental functions (`np.log`, `np.exp`) are evaluated.
- The float `NaN` (which pandas produces for empty cells and failed numeric
  coercions) is modelled as `Option.none`; every comparison against it is
  `False`, as in IEEE semantics.
- `np.log x` for `x ≤ 0` yields `NaN` (for `x < 0`) or `-inf` (at `0`),
  both of which are non-finite; they are modelled as an undefined sample
  value `Option.none`.
- A raised Python exception is modelled as `Except.error`.
-/

/-- Python exceptions that the embedded code can raise. -/
inductive PyErr where
  | keyError
  | typeError
  | valueError
deriving DecidableEq

/-! ### Equation parser, `app.py` lines 86-99

`parse_log_equation` runs
`re.search(r'y\s*=\s*([-\d.]+)\s*\*\s*ln\(x\)\s*\+\s*([-\d.]+)', eq_str)`
and, on a match, applies `float` to both groups; `parse_linear_equation` is
identical with `x` in place of `ln(x)`.

In these two patterns every literal or character class that follows a
quantified sub-pattern is disjoint from the quantified class (the numeric
class `[-\d.]`, the whitespace class `\s`, and the literals `*`, `l`, `x`,
`+` are pairwise disjoint), so the backtracking regex engine matches, at any
given start position, exactly when the deterministic maximal-munch matcher
below does, and it produces the same two groups.  `re.search` tries start
positions left to right, which `searchEq` mirrors. -/

/-- The character class `[-\d.]` of the numeric groups (ASCII digits). -/
def isTokenChar (c : Char) : Bool := c == '-' || c == '.' || c.isDigit

/-- The regex whitespace class `\s` (the forms occurring in equation cells). -/
def isSpaceChar (c : Char) : Bool := c == ' ' || c == '\t' || c == '\n' || c == '\r'

/-- Consume one expected literal character. -/
def expectChar (c : Char) : List Char → Option (List Char)
  | [] => none
  | x :: rest => if x = c then some rest else none

/-- Consume an expected literal string. -/
def expectStr : List Char → List Char → Option (List Char)
  | [], l => some l
  | _ :: _, [] => none
  | c :: cs, x :: rest => if x = c then expectStr cs rest else none

/-- Consume `\s*` (maximal munch). -/
def dropSpaces (l : List Char) : List Char := l.dropWhile isSpaceChar

/-- Consume `([-\d.]+)` (greedy): the maximal non-empty run of numeric-class
characters, returned together with the remaining input. -/
def takeNum (l : List Char) : Option (List Char × List Char) :=
  match l.takeWhile isTokenChar with
  | [] => none
  | t => some (t, l.dropWhile isTokenChar)

/-- Match the equation pattern anchored at the current position, where `mid`
is the literal between `*` and `+` (`ln(x)` for the logarithmic pattern, `x`
for the linear one).  Returns the two numeric groups. -/
def matchEqAt (mid : List Char) (l : List Char) : Option (List Char × List Char) := do
  let l ← expectChar 'y' l
  let l := dropSpaces l
  let l ← expectChar '=' l
  let l := dropSpaces l
  let (t1, l) ← takeNum l
  let l := dropSpaces l
  let l ← expectChar '*' l
  let l := dropSpaces l
  let l ← expectStr mid l
  let l := dropSpaces l
  let l ← expectChar '+' l
  let l := dropSpaces l
  let (t2, _) ← takeNum l
  pure (t1, t2)

/-- `re.search`: try each start position, leftmost first. -/
def searchEq (mid : List Char) : List Char → Option (List Char × List Char)
  | [] => none
  | c :: rest =>
    match matchEqAt mid (c :: rest) with
    | some r => some r
    | none => searchEq mid rest

/-- Literal `ln(x)` of the logarithmic pattern. -/
def lnxLit : List Char := ['l', 'n', '(', 'x', ')']

/-- Literal `x` of the linear pattern. -/
def xLit : List Char := ['x']

/-- Value of a digit run, as a natural number. -/
def digitsNat (l : List Char) : ℕ :=
  l.foldl (fun acc c => acc * 10 + (c.toNat - '0'.toNat)) 0

/-- Python `float` on an unsigned token drawn from the `[-\d.]` class:
`digits`, `digits.`, `digits.digits` or `.digits`.  (Exponent, `inf`/`nan`
and underscore forms contain characters outside the class and can never be
produced by the regex groups.)  Any other shape makes `float` raise
`ValueError`, modelled as `none`. -/
def pyFloatUnsigned (l : List Char) : Option ℚ :=
  let ip := l.takeWhile Char.isDigit
  match l.dropWhile Char.isDigit with
  | [] => if ip.isEmpty then none else some (mkRat (digitsNat ip) 1)
  | '.' :: fp =>
      if fp.all Char.isDigit && !(ip.isEmpty && fp.isEmpty) then
        some (mkRat (digitsNat ip * Nat.pow 10 fp.length + digitsNat fp) (Nat.pow 10 fp.length))
      else none
  | _ => none

/-- Python `float` on a token drawn from the `[-\d.]` class: at most one
leading minus sign, then an unsigned decimal number. -/
def pyFloat? : List Char → Option ℚ
  | '-' :: rest => (pyFloatUnsigned rest).map (fun q => -q)
  | l => pyFloatUnsigned l

/-- Common body of the two parsers: regex search, then `float` on both
groups (`float` raises `ValueError` on a group that is not a valid number;
no match returns the absent value, i.e. Python `(None, None)`). -/
def parseEqList (mid : List Char) (l : List Char) : Except PyErr (Option (ℚ × ℚ)) :=
  match searchEq mid l with
  | none => .ok none
  | some (t1, t2) =>
    match pyFloat? t1, pyFloat? t2 with
    | some a, some b => .ok (some (a, b))
    | _, _ => .error .valueError

/-- `parse_log_equation` (app.py lines 86-91). -/
def parse_log_equation (s : String) : Except PyErr (Option (ℚ × ℚ)) :=
  parseEqList lnxLit s.data

/-- `parse_linear_equation` (app.py lines 94-99). -/
def parse_linear_equation (s : String) : Except PyErr (Option (ℚ × ℚ)) :=
  parseEqList xLit s.data

deriving instance DecidableEq for Except

example : parse_log_equation "y = 2 * ln(x) + 3" = .ok (some (2, 3)) := rfl
example : parse_log_equation "y = 77.1095 * ln(x) + -656.0219" =
    .ok (some (mkRat 771095 10000, -mkRat 6560219 10000)) := rfl
example : parse_log_equation "y = 2 * x + 3" = .ok none := rfl
example : parse_linear_equation "y = 0.0013 * x + 54.4297" =
    .ok (some (mkRat 13 10000, mkRat 544297 10000)) := rfl
example : parse_log_equation "y = 1.2.3 * ln(x) + 5" = .error .valueError := rfl
example : parse_log_equation "note: y = 2 * ln(x) + 3 (approx)" = .ok (some (2, 3)) := rfl

/-! ### Pandas cells and data frames

The button handler (app.py lines 423-449) reads the pasted text with
`pd.read_csv(..., sep='\t')` into a data frame.  A cell is a string, a
number, or the float NaN that pandas produces for an empty cell or a failed
`to_numeric` coercion.  Reading the input text itself is not modelled; the
embedding starts from the resulting frame. -/

/-- One pandas cell. -/
inductive Cell where
  | s (v : String)
  | num (v : ℚ)
  | nan
deriving DecidableEq

/-- A pandas data frame: header column names plus rows of cells. -/
structure Df where
  cols : List String
  rows : List (List Cell)
deriving DecidableEq

/-- `row[c]`: column lookup raises `KeyError` when the column is absent; a
row shorter than the header was padded with NaN by the reader. -/
def getCell (cols : List String) (r : List Cell) (c : String) : Except PyErr Cell :=
  match cols.findIdx? (fun x => x == c) with
  | none => .error .keyError
  | some j => .ok ((r[j]?).getD .nan)

/-- Read a cell of a numerically coerced column as a float; NaN is `none`.
A string cell here models a frame state that the button handler can not
produce for the numeric columns (they are coerced first), and numeric code
raises `TypeError` on it. -/
def cellFloat : Cell → Except PyErr (Option ℚ)
  | .num v => .ok (some v)
  | .nan => .ok none
  | .s _ => .error .typeError

/-- `parse_log_equation(row[...])` / `parse_linear_equation(row[...])` on a
raw cell: `re.search` raises `TypeError` unless the argument is a string
(an empty equation cell is the float NaN). -/
def parseCellEq (mid : List Char) : Cell → Except PyErr (Option (ℚ × ℚ))
  | .s v => parseEqList mid v.data
  | _ => .error .typeError

/-- Float `<` with NaN operands: any comparison against NaN is false. -/
def oLt (o₁ o₂ : Option ℚ) : Bool :=
  match o₁, o₂ with
  | some a, some b => decide (a < b)
  | _, _ => false

/-- Float multiplication with a possibly-NaN operand. -/
def oMul (o : Option ℚ) (r : ℚ) : Option ℚ := o.map (fun v => v * r)

/-- Two-argument pandas min: NaN values are skipped. -/
def nanMin2 (o₁ o₂ : Option ℚ) : Option ℚ :=
  match o₁, o₂ with
  | some a, some b => some (min a b)
  | some a, none => some a
  | none, o => o

/-- Two-argument pandas max: NaN values are skipped. -/
def nanMax2 (o₁ o₂ : Option ℚ) : Option ℚ :=
  match o₁, o₂ with
  | some a, some b => some (max a b)
  | some a, none => some a
  | none, o => o

/-- `df[c].min()`: smallest non-NaN value of the column (NaN when empty). -/
def nanMin (l : List (Option ℚ)) : Option ℚ := l.foldl nanMin2 none

/-- `df[c].max()`: largest non-NaN value of the column (NaN when empty). -/
def nanMax (l : List (Option ℚ)) : Option ℚ := l.foldl nanMax2 none

/-- Collect a numeric column (`df[c]` for every row). -/
def colFloats (cols : List String) (c : String) : List (List Cell) → Except PyErr (List (Option ℚ))
  | [] => .ok []
  | r :: rest => do
    let cell ← getCell cols r c
    let v ← cellFloat cell
    let vs ← colFloats cols c rest
    pure (v :: vs)

/-! ### Column names and UI strings (app.py lines 42, 63-65, 429) -/

def colSeller : String := "出品者カテゴリー"
def colLogEq : String := "広告費と広告新規UUの対数回帰式"
def colLogR2 : String := "決定係数(対数)"
def colMinX : String := "データ範囲 min x"
def colMaxX : String := "データ範囲 max x"
def colLinEq : String := "広告費と広告新規UUの線形回帰式"
def colLinR2 : String := "決定係数(線形)"

/-- Selectbox option: logarithmic regression only. -/
def gtLog : String := "対数回帰（サチュレーションあり）"

/-- Selectbox option: linear regression only. -/
def gtLin : String := "線形回帰（サチュレーションなし）"

/-- Selectbox option: both regressions. -/
def gtBoth : String := "両方表示"

/-! ### Acquisition chart (`generate_graph`, app.py lines 102-259)

A Plotly trace is recorded as a descriptor: row index (segment identity,
also the palette index), model, region, the parsed coefficients and the
sampled x-range with its sample count.  The sampled points of a descriptor
are recovered by `UUTrace.points` below; purely visual attributes (color,
dash, hover template, legend grouping) carry no data and are not modelled. -/

/-- Which regression model a trace depicts. -/
inductive Model where
  | log
  | linear
deriving DecidableEq

/-- Which sub-range of the x-domain a trace covers. -/
inductive Region where
  | observed
  | extrapLow
  | extrapHigh
deriving DecidableEq

/-- Descriptor of one acquisition-chart trace. -/
structure UUTrace where
  rowIdx : ℕ
  model : Model
  region : Region
  a : ℚ
  b : ℚ
  lo : Option ℚ
  hi : Option ℚ
  n : ℕ
deriving DecidableEq

/-- Traces one row contributes for one model (app.py lines 128-173 for the
log model and the textually parallel lines 180-225 for the linear model):
the observed trace over `[x_min, x_max]` with 300 samples, then, when
extrapolation is on, a low trace over `[all_x_min, x_min]` when
`all_x_min < x_min` and a high trace over `[x_max, all_x_max]` when
`all_x_max > x_max`, each with 100 samples. -/
def uuRowTraces (i : ℕ) (model : Model) (a b : ℚ)
    (x_min x_max all_x_min all_x_max : Option ℚ) (se : Bool) : List UUTrace :=
  ⟨i, model, .observed, a, b, x_min, x_max, 300⟩ ::
    (if se then
      (if oLt all_x_min x_min then [⟨i, model, .extrapLow, a, b, all_x_min, x_min, 100⟩] else []) ++
      (if oLt x_max all_x_max then [⟨i, model, .extrapHigh, a, b, x_max, all_x_max, 100⟩] else [])
    else [])

/-- Body of the `for i, (_, row) in enumerate(df.iterrows())` loop
(app.py lines 117-225). -/
def processRow (cols : List String) (all_x_min all_x_max : Option ℚ)
    (gt : String) (se : Bool) (i : ℕ) (r : List Cell) : Except PyErr (List UUTrace) := do
  let _brand ← getCell cols r colSeller
  let xminC ← getCell cols r colMinX
  let x_min ← cellFloat xminC
  let xmaxC ← getCell cols r colMaxX
  let x_max ← cellFloat xmaxC
  let logTraces ←
    if gt = gtLog ∨ gt = gtBoth then do
      let eqC ← getCell cols r colLogEq
      let pl ← parseCellEq lnxLit eqC
      let _r2 ← getCell cols r colLogR2
      match pl with
      | some (a, b) => pure (uuRowTraces i .log a b x_min x_max all_x_min all_x_max se)
      | none => pure ([] : List UUTrace)
    else pure ([] : List UUTrace)
  let linTraces ←
    if gt = gtLin ∨ gt = gtBoth then do
      let eqC ← getCell cols r colLinEq
      let pl ← parseCellEq xLit eqC
      let _r2 ← getCell cols r colLinR2
      match pl with
      | some (a, b) => pure (uuRowTraces i .linear a b x_min x_max all_x_min all_x_max se)
      | none => pure ([] : List UUTrace)
    else pure ([] : List UUTrace)
  pure (logTraces ++ linTraces)

/-- The row loop, threading the row index. -/
def processRows (cols : List String) (axmin axmax : Option ℚ) (gt : String) (se : Bool) :
    ℕ → List (List Cell) → Except PyErr (List UUTrace)
  | _, [] => .ok []
  | i, r :: rest => do
    let ts ← processRow cols axmin axmax gt se i r
    let more ← processRows cols axmin axmax gt se (i + 1) rest
    pure (ts ++ more)

/-- `generate_graph` (app.py lines 102-259): global x-range from the whole
frame (`all_x_max` already multiplied by the extrapolation ratio, line 115),
then one pass over the rows. -/
def generate_graph (df : Df) (graph_type : String) (show_extrapolation : Bool)
    (extrap_ratio : ℚ) : Except PyErr (List UUTrace) := do
  let mins ← colFloats df.cols colMinX df.rows
  let maxs ← colFloats df.cols colMaxX df.rows
  let all_x_min := nanMin mins
  let all_x_max := oMul (nanMax maxs) extrap_ratio
  processRows df.cols all_x_min all_x_max graph_type show_extrapolation 0 df.rows

/-- The header of the sample table (app.py line 42). -/
def sampleCols : List String :=
  [colSeller, colLogEq, colLogR2, colMinX, colMaxX, colLinEq, colLinR2]

/-- Convenience constructor for a row shaped like the sample table. -/
def mkRow (name : String) (logC r2l mn mx linC r2n : Cell) : List Cell :=
  [.s name, logC, r2l, mn, mx, linC, r2n]

example :
    generate_graph
      ⟨sampleCols, [mkRow "A" (.s "y = 2 * ln(x) + 3") (.num 1) (.num 1) (.num 10)
        (.s "y = 1 * x + 2") (.num 1)]⟩ gtLog false 1 =
      .ok [⟨0, .log, .observed, 2, 3, some 1, some 10, 300⟩] := rfl

example :
    generate_graph
      ⟨sampleCols, [mkRow "A" (.s "y = 2 * ln(x) + 3") (.num 1) (.num 1) (.num 10)
        (.s "y = 1 * x + 2") (.num 1)]⟩ gtBoth false 1 =
      .ok [⟨0, .log, .observed, 2, 3, some 1, some 10, 300⟩,
           ⟨0, .linear, .observed, 1, 2, some 1, some 10, 300⟩] := rfl

/-! ### Sampled curve evaluation over the reals

numpy evaluation is modelled over `ℝ`: `np.linspace(lo, hi, n)` produces
`n` evenly spaced samples `lo + i*(hi-lo)/(n-1)`, both endpoints included. -/

noncomputable def linspace (lo hi : ℝ) (n : ℕ) : List ℝ :=
  (List.range n).map (fun (i : ℕ) => lo + (i : ℝ) * ((hi - lo) / ((n : ℝ) - 1)))

/-- `np.log`: finite only for positive arguments; `np.log x` is NaN for
`x < 0` and `-inf` at `x = 0`, both non-finite and modelled as an undefined
sample value. -/
noncomputable def npLog (x : ℝ) : Option ℝ :=
  if 0 < x then some (Real.log x) else none

/-- `a * np.log(x) + b` (app.py lines 131, 316): undefined where the
logarithm is. -/
noncomputable def uuLog (a b x : ℝ) : Option ℝ :=
  (npLog x).map (fun v => a * v + b)

/-- `np.where(y_uu > 0, x_data / y_uu, np.nan)` at one sample (app.py lines
317, 335, 357, 376): the N-CPA value is defined only where the acquisition
value is a positive number; a NaN acquisition value fails the `> 0`
comparison, so it also yields NaN. -/
noncomputable def ncpaOfUU (x : ℝ) : Option ℝ → Option ℝ
  | some v => if 0 < v then some (x / v) else none
  | none => none

/-- One N-CPA sample of the log model. -/
noncomputable def ncpaLogPoint (a b x : ℝ) : Option ℝ := ncpaOfUU x (uuLog a b x)

/-- One N-CPA sample of the linear model. -/
noncomputable def ncpaLinPoint (a b x : ℝ) : Option ℝ := ncpaOfUU x (some (a * x + b))

/-- Acquisition samples of the log model over `[lo, hi]` (app.py lines
130-131). -/
noncomputable def uuLogSeries (a b lo hi : ℝ) (n : ℕ) : List (ℝ × Option ℝ) :=
  (linspace lo hi n).map (fun x => (x, uuLog a b x))

/-- Acquisition samples of the linear model over `[lo, hi]` (app.py lines
181-182). -/
noncomputable def uuLinSeries (a b lo hi : ℝ) (n : ℕ) : List (ℝ × Option ℝ) :=
  (linspace lo hi n).map (fun x => (x, some (a * x + b)))

/-- N-CPA samples of the log model over `[lo, hi]` (app.py lines 315-317). -/
noncomputable def ncpaLogSeries (a b lo hi : ℝ) (n : ℕ) : List (ℝ × Option ℝ) :=
  (linspace lo hi n).map (fun x => (x, ncpaLogPoint a b x))

/-- N-CPA samples of the linear model over `[lo, hi]` (app.py lines
355-357). -/
noncomputable def ncpaLinSeries (a b lo hi : ℝ) (n : ℕ) : List (ℝ × Option ℝ) :=
  (linspace lo hi n).map (fun x => (x, ncpaLinPoint a b x))

/-- The sampled points of an acquisition trace descriptor.  A NaN range
endpoint (possible when a min/max cell failed numeric coercion) makes every
linspace sample NaN, hence every x and y NaN. -/
noncomputable def UUTrace.points (t : UUTrace) : List (Option ℝ × Option ℝ) :=
  match t.lo, t.hi with
  | some l, some h =>
    (match t.model with
      | .log => uuLogSeries (t.a : ℝ) (t.b : ℝ) (l : ℝ) (h : ℝ) t.n
      | .linear => uuLinSeries (t.a : ℝ) (t.b : ℝ) (l : ℝ) (h : ℝ) t.n).map
      (fun (p : ℝ × Option ℝ) => (some p.1, p.2))
  | _, _ => List.replicate t.n (none, none)

/-! ### Cost-metric (N-CPA) chart (`find_ncpa_minimum_log` and
`generate_ncpa_graph`, app.py lines 262-419) -/

/-- `find_ncpa_minimum_log` (app.py lines 262-275): candidate minimum of
`x / (a*ln(x)+b)` at `x = exp(1 - b/a)`, only for `a > 0` and only when the
acquisition value there is positive. -/
noncomputable def find_ncpa_minimum_log (a b : ℝ) : Option ℝ :=
  if a ≤ 0 then none
  else
    let x_min := Real.exp (1 - b / a)
    let uu_at_min := a * Real.log x_min + b
    if 0 < uu_at_min then some x_min else none

/-- Start of the displayed N-CPA range for the log model (app.py lines
305-311): the larger of the N-CPA minimum point and the row's `x_min` when
the minimum exists, otherwise `x_min` itself.  Python's builtin
`max(v, x_min)` returns `v` when `x_min` is NaN (the NaN comparison is
false). -/
noncomputable def ncpa_x_start (a b : ℝ) (x_min : Option ℝ) : Option ℝ :=
  match find_ncpa_minimum_log a b with
  | some v =>
    match x_min with
    | some m => some (max v m)
    | none => some v
  | none => x_min

/-- Descriptor of one N-CPA-chart trace. -/
structure NcpaTrace where
  rowIdx : ℕ
  model : Model
  region : Region
  a : ℝ
  b : ℝ
  lo : Option ℝ
  hi : Option ℝ
  n : ℕ

/-- The sampled points of an N-CPA trace descriptor. -/
noncomputable def NcpaTrace.points (t : NcpaTrace) : List (Option ℝ × Option ℝ) :=
  match t.lo, t.hi with
  | some l, some h =>
    (match t.model with
      | .log => ncpaLogSeries t.a t.b l h t.n
      | .linear => ncpaLinSeries t.a t.b l h t.n).map
      (fun (p : ℝ × Option ℝ) => (some p.1, p.2))
  | _, _ => List.replicate t.n (none, none)

/-- N-CPA traces one row contributes for the log model (app.py lines
303-345): nothing unless the display start (which exists unless both the
minimum point is undefined and `x_min` is NaN) lies strictly below `x_max`;
otherwise the observed trace over `[x_start, x_max]` with 300 samples plus,
when extrapolation is on and `all_x_max > x_max`, a single high-side trace
over `[x_max, all_x_max]` with 100 samples.  There is no low-side branch in
the source.  A NaN in a float comparison makes it false. -/
noncomputable def ncpaLogRowTraces (i : ℕ) (a b : ℝ) (xmin xmax axmax : Option ℝ)
    (se : Bool) : List NcpaTrace :=
  match ncpa_x_start a b xmin, xmax with
  | some xs, some xm =>
    if xs < xm then
      ⟨i, .log, .observed, a, b, some xs, some xm, 300⟩ ::
        (if se then
          match axmax with
          | some am => if xm < am then [⟨i, .log, .extrapHigh, a, b, some xm, some am, 100⟩] else []
          | none => []
        else [])
    else []
  | _, _ => []

/-- N-CPA traces one row contributes for the linear model (app.py lines
350-386): the observed trace over `[x_min, x_max]` unconditionally, plus
the high-side extrapolation under the same condition as the log model. -/
noncomputable def ncpaLinRowTraces (i : ℕ) (a b : ℝ) (xmin xmax axmax : Option ℝ)
    (se : Bool) : List NcpaTrace :=
  ⟨i, .linear, .observed, a, b, xmin, xmax, 300⟩ ::
    (if se then
      match xmax, axmax with
      | some xm, some am => if xm < am then [⟨i, .linear, .extrapHigh, a, b, some xm, some am, 100⟩] else []
      | _, _ => []
    else [])

/-- Cast a possibly-NaN table value into the real-valued evaluation layer. -/
noncomputable def oCast (o : Option ℚ) : Option ℝ := o.map (fun q => (q : ℝ))

/-- Body of the row loop of `generate_ncpa_graph` (app.py lines 292-386). -/
noncomputable def processNcpaRow (cols : List String) (axmax : Option ℝ) (gt : String)
    (se : Bool) (i : ℕ) (r : List Cell) : Except PyErr (List NcpaTrace) := do
  let _brand ← getCell cols r colSeller
  let xminC ← getCell cols r colMinX
  let x_min ← cellFloat xminC
  let xmaxC ← getCell cols r colMaxX
  let x_max ← cellFloat xmaxC
  let logTraces ←
    if gt = gtLog ∨ gt = gtBoth then do
      let eqC ← getCell cols r colLogEq
      let pl ← parseCellEq lnxLit eqC
      let _r2 ← getCell cols r colLogR2
      match pl with
      | some (a, b) =>
        pure (ncpaLogRowTraces i (a : ℝ) (b : ℝ) (oCast x_min) (oCast x_max) axmax se)
      | none => pure ([] : List NcpaTrace)
    else pure ([] : List NcpaTrace)
  let linTraces ←
    if gt = gtLin ∨ gt = gtBoth then do
      let eqC ← getCell cols r colLinEq
      let pl ← parseCellEq xLit eqC
      let _r2 ← getCell cols r colLinR2
      match pl with
      | some (a, b) =>
        pure (ncpaLinRowTraces i (a : ℝ) (b : ℝ) (oCast x_min) (oCast x_max) axmax se)
      | none => pure ([] : List NcpaTrace)
    else pure ([] : List NcpaTrace)
  pure (logTraces ++ linTraces)

/-- The row loop of `generate_ncpa_graph`, threading the row index. -/
noncomputable def processNcpaRows (cols : List String) (axmax : Option ℝ) (gt : String)
    (se : Bool) : ℕ → List (List Cell) → Except PyErr (List NcpaTrace)
  | _, [] => .ok []
  | i, r :: rest => do
    let ts ← processNcpaRow cols axmax gt se i r
    let more ← processNcpaRows cols axmax gt se (i + 1) rest
    pure (ts ++ more)

/-- `generate_ncpa_graph` (app.py lines 278-419): only the global maximum is
computed (line 290, already multiplied by the extrapolation ratio); there is
no global minimum and no low-side extrapolation. -/
noncomputable def generate_ncpa_graph (df : Df) (graph_type : String)
    (show_extrapolation : Bool) (extrap_ratio : ℚ) : Except PyErr (List NcpaTrace) := do
  let maxs ← colFloats df.cols colMaxX df.rows
  let all_x_max := oMul (nanMax maxs) extrap_ratio
  processNcpaRows df.cols (oCast all_x_max) graph_type show_extrapolation 0 df.rows

/-! ### The generate-button handler (app.py lines 423-449) -/

/-- Outcome of pressing the generate button once the pasted text has been
read into a frame. -/
inductive HandlerOutcome where
  | missingCols (cols : List String)
  | errorCaught (e : PyErr)
  | charts (uu : List UUTrace) (ncpa : List NcpaTrace)

/-- The three required columns (app.py line 429). -/
def required_cols : List String := [colSeller, colMinX, colMaxX]

/-- `pd.to_numeric(..., errors='coerce')` on one string cell.  The plain
decimal forms are modelled; exponent, `inf` and surrounding-whitespace
forms are not exercised by any theorem below. -/
def pyNum? (s : String) : Option ℚ := pyFloat? s.data

/-- `pd.to_numeric(..., errors='coerce')` on one cell: numbers pass
through, anything unparseable becomes NaN. -/
def coerceCell : Cell → Cell
  | .num v => .num v
  | .nan => .nan
  | .s v =>
    match pyNum? v with
    | some q => .num q
    | none => .nan

/-- `df[c] = pd.to_numeric(df[c], errors='coerce')` (app.py lines 436-439):
raises `KeyError` when the column is absent, otherwise rewrites the column
in place. -/
def to_numeric_col (df : Df) (c : String) : Except PyErr Df :=
  match df.cols.findIdx? (fun x => x == c) with
  | none => .error .keyError
  | some j =>
    .ok ⟨df.cols, df.rows.map (fun r => r.mapIdx (fun k cell => if k = j then coerceCell cell else cell))⟩

/-- The generate-button handler (app.py lines 423-449): check the three
required columns (line 429-433); coerce the four numeric columns, two of
which (`決定係数`) are accessed unconditionally although the header may
lack them (lines 436-439); then build both charts.  Any exception raised
on the way lands in the top-level `except` (lines 447-449), which shows a
generic error and produces no chart. -/
noncomputable def handler (df : Df) (graph_type : String) (show_ext : Bool)
    (ratio : ℚ) : HandlerOutcome :=
  let missing := required_cols.filter (fun c => !(df.cols.contains c))
  if missing ≠ [] then .missingCols missing
  else
    match (do
      let df ← to_numeric_col df colMinX
      let df ← to_numeric_col df colMaxX
      let df ← to_numeric_col df colLogR2
      let df ← to_numeric_col df colLinR2
      let uu ← generate_graph df graph_type show_ext ratio
      let ncpa ← generate_ncpa_graph df graph_type show_ext ratio
      pure (uu, ncpa) : Except PyErr (List UUTrace × List NcpaTrace)) with
    | .ok (uu, ncpa) => .charts uu ncpa
    | .error e => .errorCaught e

/-! ### Helper lemmas about `linspace` -/

lemma linspace_length (lo hi : ℝ) (n : ℕ) : (linspace lo hi n).length = n := by
  simp [linspace]

lemma linspace_get (lo hi : ℝ) (n i : ℕ) (h : i < (linspace lo hi n).length) :
    (linspace lo hi n).get ⟨i, h⟩ = lo + (i : ℝ) * ((hi - lo) / ((n : ℝ) - 1)) := by
  simp [linspace]

lemma linspace_head (lo hi : ℝ) (n : ℕ) (h : n ≠ 0) :
    (linspace lo hi n).head? = some lo := by
  cases n with
  | zero => exact absurd rfl h
  | succ m =>
    rw [linspace, List.range_succ_eq_map]
    simp

lemma linspace_getLast (lo hi : ℝ) (n : ℕ) (h : 2 ≤ n) :
    (linspace lo hi n).getLast? = some hi := by
  obtain ⟨m, rfl⟩ : ∃ m, n = m + 1 := ⟨n - 1, by omega⟩
  rw [linspace, List.range_succ, List.map_append]
  simp only [List.map_cons, List.map_nil]
  rw [List.getLast?_concat]
  have hm : (m : ℝ) ≠ 0 := by
    have h1 : 1 ≤ m := by omega
    exact_mod_cast Nat.cast_ne_zero.mpr (by omega)
  push_cast
  have he : (m : ℝ) + 1 - 1 = (m : ℝ) := by ring
  rw [he]
  field_simp

lemma linspace_mem {lo hi x : ℝ} {n : ℕ} (hle : lo ≤ hi) (hx : x ∈ linspace lo hi n) :
    lo ≤ x ∧ x ≤ hi := by
  rw [linspace] at hx
  obtain ⟨i, him, rfl⟩ := List.mem_map.mp hx
  rw [List.mem_range] at him
  rcases Nat.lt_or_ge n 2 with h2 | h2
  · have hi0 : i = 0 := by omega
    subst hi0
    simp [hle]
  · have hden : (0 : ℝ) < (n : ℝ) - 1 := by
      have : (2 : ℝ) ≤ (n : ℝ) := by exact_mod_cast h2
      linarith
    have hstep : 0 ≤ (hi - lo) / ((n : ℝ) - 1) := div_nonneg (by linarith) (le_of_lt hden)
    constructor
    · nlinarith [mul_nonneg (Nat.cast_nonneg (α := ℝ) i) hstep]
    · have hin : (i : ℝ) ≤ (n : ℝ) - 1 := by
        have : (i : ℝ) + 1 ≤ (n : ℝ) := by exact_mod_cast him
        linarith
      have h1 : (i : ℝ) * ((hi - lo) / ((n : ℝ) - 1)) ≤
          ((n : ℝ) - 1) * ((hi - lo) / ((n : ℝ) - 1)) :=
        mul_le_mul_of_nonneg_right hin hstep
      have h2 : ((n : ℝ) - 1) * ((hi - lo) / ((n : ℝ) - 1)) = hi - lo := by
        field_simp
      linarith

lemma linspace_chain_of (R : ℝ → ℝ → Prop) (lo hi : ℝ) (n : ℕ)
    (h : ∀ i : ℕ, i + 1 < n →
      R (lo + (i : ℝ) * ((hi - lo) / ((n : ℝ) - 1)))
        (lo + ((i : ℝ) + 1) * ((hi - lo) / ((n : ℝ) - 1)))) :
    List.Chain' R (linspace lo hi n) := by
  rw [List.chain'_iff_get]
  intro i hi
  rw [linspace_length] at hi
  have hi' : i + 1 < n := by omega
  rw [linspace_get, linspace_get]
  have := h i hi'
  push_cast at this ⊢
  exact this

/-! ### Ordering of possibly-undefined sample values -/

/-- Both samples defined and weakly increasing. -/
def leOpt (o₁ o₂ : Option ℝ) : Prop :=
  ∃ v₁ v₂, o₁ = some v₁ ∧ o₂ = some v₂ ∧ v₁ ≤ v₂

/-- Both samples defined and weakly decreasing. -/
def geOpt (o₁ o₂ : Option ℝ) : Prop :=
  ∃ v₁ v₂, o₁ = some v₁ ∧ o₂ = some v₂ ∧ v₂ ≤ v₁

/-- C2: for every pair of coefficients, `find_ncpa_minimum_log` returns the
point `exp(1 - b/a)` exactly when `a > 0` and the acquisition value at that
point is positive; it never returns any other point; and whenever it
returns nothing, the displayed N-CPA range starts at the observed domain's
`x_min`. -/
theorem claim_C2 (a b : ℝ) (xmin : Option ℝ) :
    (find_ncpa_minimum_log a b = some (Real.exp (1 - b / a)) ↔
      (0 < a ∧ 0 < a * Real.log (Real.exp (1 - b / a)) + b)) ∧
    (find_ncpa_minimum_log a b = none ∨
      find_ncpa_minimum_log a b = some (Real.exp (1 - b / a))) ∧
    (find_ncpa_minimum_log a b = none → ncpa_x_start a b xmin = xmin) := by
  refine ⟨?_, ?_, ?_⟩
  · simp only [find_ncpa_minimum_log]
    split_ifs with h1 h2
    · simp only [false_iff, not_and]
      intro ha
      exact absurd h1 (not_le.mpr ha)
    · simp only [Option.some.injEq, true_iff]
      exact ⟨not_le.mp h1, h2⟩
    · simp only [false_iff, not_and]
      intro _ huu
      exact absurd huu h2
  · simp only [find_ncpa_minimum_log]
    split_ifs with h1 h2
    · exact Or.inl rfl
    · exact Or.inr rfl
    · exact Or.inl rfl
  · intro hnone
    rw [ncpa_x_start, hnone]

/-- C2 witness at `a = -1`, `b = 0`, `x_min = 5`. -/
theorem claim_C2_witness :
    find_ncpa_minimum_log (-1) 0 = none ∧ ncpa_x_start (-1) 0 (some 5) = some 5 := by
  have h : find_ncpa_minimum_log (-1) 0 = none := by
    rw [find_ncpa_minimum_log, if_pos (by norm_num : (-1 : ℝ) ≤ 0)]
  exact ⟨h, (claim_C2 (-1) 0 (some 5)).2.2 h⟩

/-- C6: at every sampled x of an N-CPA series (log or linear, any range, so
observed and extrapolated alike), a non-positive denominator makes the
sample's y value undefined, never zero or negative. -/
theorem claim_C6 (a b lo hi : ℝ) (n : ℕ) :
    (∀ p ∈ ncpaLogSeries a b lo hi n, a * Real.log p.1 + b ≤ 0 → p.2 = none) ∧
    (∀ p ∈ ncpaLinSeries a b lo hi n, a * p.1 + b ≤ 0 → p.2 = none) := by
  constructor
  · intro p hp hden
    obtain ⟨x, _, rfl⟩ := List.mem_map.mp hp
    show ncpaLogPoint a b x = none
    rw [ncpaLogPoint, uuLog, npLog]
    by_cases hx0 : 0 < x
    · rw [if_pos hx0]
      show ncpaOfUU x (some (a * Real.log x + b)) = none
      simp only [ncpaOfUU]
      exact if_neg (not_lt.mpr hden)
    · rw [if_neg hx0]
      rfl
  · intro p hp hden
    obtain ⟨x, _, rfl⟩ := List.mem_map.mp hp
    show ncpaLinPoint a b x = none
    rw [ncpaLinPoint, ncpaOfUU]
    exact if_neg (not_lt.mpr hden)

/-- C6 witness: the single-sample log series at `x = 1` with `a = -1`,
`b = 0` has denominator `0` and an undefined sample. -/
theorem claim_C6_witness :
    ((1 : ℝ), ncpaLogPoint (-1) 0 1) ∈ ncpaLogSeries (-1) 0 1 1 1 ∧
    (-1 : ℝ) * Real.log (1 : ℝ) + 0 ≤ 0 ∧ ncpaLogPoint (-1) 0 1 = none := by
  have hmem : ((1 : ℝ), ncpaLogPoint (-1) 0 1) ∈ ncpaLogSeries (-1) 0 1 1 1 := by
    have h1 : linspace 1 1 1 = [1] := by
      rw [linspace]
      have h0 : List.range 1 = [0] := rfl
      rw [h0]
      norm_num
    rw [ncpaLogSeries, h1]
    simp
  have hden : (-1 : ℝ) * Real.log (1 : ℝ) + 0 ≤ 0 := by
    rw [Real.log_one]
    norm_num
  exact ⟨hmem, hden, (claim_C6 (-1) 0 1 1 1).1 _ hmem hden⟩

/-- C9: for any coefficients and any observed domain `0 < xMin < xMax`, the
observed acquisition series (log and linear model alike) has exactly 300
samples, its x values strictly increase, and its y values are all defined
and move with the sign of `a`: weakly increasing when `a > 0`, weakly
decreasing when `a < 0`. -/
theorem claim_C9 (a b xmin xmax : ℝ) (h0 : 0 < xmin) (hlt : xmin < xmax) :
    ((uuLogSeries a b xmin xmax 300).length = 300 ∧
    List.Chain' (fun x y => x < y) ((uuLogSeries a b xmin xmax 300).map Prod.fst) ∧
    (0 < a → List.Chain' leOpt ((uuLogSeries a b xmin xmax 300).map Prod.snd)) ∧
    (a < 0 → List.Chain' geOpt ((uuLogSeries a b xmin xmax 300).map Prod.snd))) ∧
    ((uuLinSeries a b xmin xmax 300).length = 300 ∧
    List.Chain' (fun x y => x < y) ((uuLinSeries a b xmin xmax 300).map Prod.fst) ∧
    (0 < a → List.Chain' leOpt ((uuLinSeries a b xmin xmax 300).map Prod.snd)) ∧
    (a < 0 → List.Chain' geOpt ((uuLinSeries a b xmin xmax 300).map Prod.snd))) := by
  have hfst : (uuLogSeries a b xmin xmax 300).map Prod.fst = linspace xmin xmax 300 := by
    rw [uuLogSeries, List.map_map]
    show List.map (fun x => x) (linspace xmin xmax 300) = linspace xmin xmax 300
    exact List.map_id _
  have hsnd : (uuLogSeries a b xmin xmax 300).map Prod.snd =
      (linspace xmin xmax 300).map (fun x => uuLog a b x) := by
    rw [uuLogSeries, List.map_map]
    rfl
  have hstep : 0 < (xmax - xmin) / ((300 : ℕ) - 1 : ℝ) := by
    apply div_pos (by linarith)
    norm_num
  have hxpos : ∀ i : ℕ, 0 < xmin + (i : ℝ) * ((xmax - xmin) / ((300 : ℕ) - 1 : ℝ)) := by
    intro i
    have : 0 ≤ (i : ℝ) * ((xmax - xmin) / ((300 : ℕ) - 1 : ℝ)) :=
      mul_nonneg (Nat.cast_nonneg i) (le_of_lt hstep)
    linarith
  have hadj : ∀ i : ℕ,
      xmin + (i : ℝ) * ((xmax - xmin) / ((300 : ℕ) - 1 : ℝ)) <
        xmin + ((i : ℝ) + 1) * ((xmax - xmin) / ((300 : ℕ) - 1 : ℝ)) := by
    intro i
    have h1 : ((i : ℝ) + 1) * ((xmax - xmin) / ((300 : ℕ) - 1 : ℝ)) =
        (i : ℝ) * ((xmax - xmin) / ((300 : ℕ) - 1 : ℝ)) +
          (xmax - xmin) / ((300 : ℕ) - 1 : ℝ) := by ring
    rw [h1]
    linarith
  have hfstLin : (uuLinSeries a b xmin xmax 300).map Prod.fst = linspace xmin xmax 300 := by
    rw [uuLinSeries, List.map_map]
    show List.map (fun x => x) (linspace xmin xmax 300) = linspace xmin xmax 300
    exact List.map_id _
  have hsndLin : (uuLinSeries a b xmin xmax 300).map Prod.snd =
      (linspace xmin xmax 300).map (fun x => some (a * x + b)) := by
    rw [uuLinSeries, List.map_map]
    rfl
  refine ⟨⟨?_, ?_, ?_, ?_⟩, ⟨?_, ?_, ?_, ?_⟩⟩
  · rw [uuLogSeries, List.length_map, linspace_length]
  · rw [hfst]
    exact linspace_chain_of _ _ _ _ (fun i _ => hadj i)
  · intro ha
    rw [hsnd, List.chain'_map]
    apply linspace_chain_of
    intro i _
    refine ⟨a * Real.log (xmin + (i : ℝ) * ((xmax - xmin) / ((300 : ℕ) - 1 : ℝ))) + b,
      a * Real.log (xmin + ((i : ℝ) + 1) * ((xmax - xmin) / ((300 : ℕ) - 1 : ℝ))) + b,
      ?_, ?_, ?_⟩
    · rw [uuLog, npLog, if_pos (hxpos i)]
      rfl
    · rw [uuLog, npLog]
      rw [if_pos (by have := hxpos (i + 1); push_cast at this; linarith [this])]
      rfl
    · have hlog := Real.log_le_log (hxpos i) (le_of_lt (hadj i))
      nlinarith [hlog]
  · intro ha
    rw [hsnd, List.chain'_map]
    apply linspace_chain_of
    intro i _
    refine ⟨a * Real.log (xmin + (i : ℝ) * ((xmax - xmin) / ((300 : ℕ) - 1 : ℝ))) + b,
      a * Real.log (xmin + ((i : ℝ) + 1) * ((xmax - xmin) / ((300 : ℕ) - 1 : ℝ))) + b,
      ?_, ?_, ?_⟩
    · rw [uuLog, npLog, if_pos (hxpos i)]
      rfl
    · rw [uuLog, npLog]
      rw [if_pos (by have := hxpos (i + 1); push_cast at this; linarith [this])]
      rfl
    · have hlog := Real.log_le_log (hxpos i) (le_of_lt (hadj i))
      nlinarith [hlog]
  · rw [uuLinSeries, List.length_map, linspace_length]
  · rw [hfstLin]
    exact linspace_chain_of _ _ _ _ (fun i _ => hadj i)
  · intro ha
    rw [hsndLin, List.chain'_map]
    apply linspace_chain_of
    intro i _
    refine ⟨a * (xmin + (i : ℝ) * ((xmax - xmin) / ((300 : ℕ) - 1 : ℝ))) + b,
      a * (xmin + ((i : ℝ) + 1) * ((xmax - xmin) / ((300 : ℕ) - 1 : ℝ))) + b,
      rfl, rfl, ?_⟩
    nlinarith [hadj i]
  · intro ha
    rw [hsndLin, List.chain'_map]
    apply linspace_chain_of
    intro i _
    refine ⟨a * (xmin + (i : ℝ) * ((xmax - xmin) / ((300 : ℕ) - 1 : ℝ))) + b,
      a * (xmin + ((i : ℝ) + 1) * ((xmax - xmin) / ((300 : ℕ) - 1 : ℝ))) + b,
      rfl, rfl, ?_⟩
    nlinarith [hadj i]

/-- C9 witness at `a = 1`, `b = 0`, domain `[1, 2]`. -/
theorem claim_C9_witness :
    (0 : ℝ) < 1 ∧ (1 : ℝ) < 2 ∧ (uuLogSeries 1 0 1 2 300).length = 300 ∧
    (uuLinSeries 1 0 1 2 300).length = 300 := by
  refine ⟨by norm_num, by norm_num, ?_, ?_⟩
  · exact (claim_C9 1 0 1 2 (by norm_num) (by norm_num)).1.1
  · exact (claim_C9 1 0 1 2 (by norm_num) (by norm_num)).2.1

/-- C5: for a segment with a parsed log fit whose N-CPA minimum point `xs`
exists, the observed N-CPA series spans exactly `[max xs xmin, xmax]` (300
samples, first at the start, last at `xmax`, all in between); when
`max xs xmin ≥ xmax` the segment contributes no N-CPA trace at all; no
low-side extrapolation trace is ever produced; and any high-side trace
covers exactly `[xmax, all_x_max]`. -/
theorem claim_C5 (i : ℕ) (a b xmin xmax axmax : ℝ) (se : Bool) (xs : ℝ)
    (hfind : find_ncpa_minimum_log a b = some xs) :
    (max xs xmin < xmax →
      ∃ rest, ncpaLogRowTraces i a b (some xmin) (some xmax) (some axmax) se =
        ⟨i, .log, .observed, a, b, some (max xs xmin), some xmax, 300⟩ :: rest) ∧
    (max xs xmin < xmax → ∀ t : NcpaTrace,
      (ncpaLogRowTraces i a b (some xmin) (some xmax) (some axmax) se).head? = some t →
        t.points.length = 300 ∧
        t.points.head? = some (some (max xs xmin), ncpaLogPoint a b (max xs xmin)) ∧
        t.points.getLast? = some (some xmax, ncpaLogPoint a b xmax) ∧
        (∀ p ∈ t.points, ∀ x : ℝ, p.1 = some x → max xs xmin ≤ x ∧ x ≤ xmax)) ∧
    (xmax ≤ max xs xmin →
      ncpaLogRowTraces i a b (some xmin) (some xmax) (some axmax) se = []) ∧
    (∀ t ∈ ncpaLogRowTraces i a b (some xmin) (some xmax) (some axmax) se,
      t.region ≠ Region.extrapLow) ∧
    (∀ t ∈ ncpaLogRowTraces i a b (some xmin) (some xmax) (some axmax) se,
      t.region = Region.extrapHigh → t.lo = some xmax ∧ t.hi = some axmax ∧ t.n = 100) := by
  have hstart : ncpa_x_start a b (some xmin) = some (max xs xmin) := by
    rw [ncpa_x_start, hfind]
  have hrow : ncpaLogRowTraces i a b (some xmin) (some xmax) (some axmax) se =
      if max xs xmin < xmax then
        (⟨i, .log, .observed, a, b, some (max xs xmin), some xmax, 300⟩ : NcpaTrace) ::
          (if se then
            (if xmax < axmax then
              [⟨i, .log, .extrapHigh, a, b, some xmax, some axmax, 100⟩] else [])
          else [])
      else [] := by
    simp only [ncpaLogRowTraces, hstart]
  refine ⟨?_, ?_, ?_, ?_, ?_⟩
  · intro hlt
    rw [hrow, if_pos hlt]
    exact ⟨_, rfl⟩
  · intro hlt t ht
    rw [hrow, if_pos hlt] at ht
    rw [List.head?_cons, Option.some.injEq] at ht
    subst ht
    have hpts : (⟨i, .log, .observed, a, b, some (max xs xmin), some xmax, 300⟩ :
        NcpaTrace).points =
        (ncpaLogSeries a b (max xs xmin) xmax 300).map
          (fun p : ℝ × Option ℝ => (some p.1, p.2)) := rfl
    refine ⟨?_, ?_, ?_, ?_⟩
    · rw [hpts, List.length_map, ncpaLogSeries, List.length_map, linspace_length]
    · rw [hpts, List.head?_map, ncpaLogSeries, List.head?_map,
        linspace_head _ _ _ (by norm_num)]
      rfl
    · rw [hpts, List.getLast?_map, ncpaLogSeries, List.getLast?_map,
        linspace_getLast _ _ _ (by norm_num)]
      rfl
    · intro p hp x hx
      rw [hpts] at hp
      obtain ⟨q, hq, rfl⟩ := List.mem_map.mp hp
      rw [ncpaLogSeries] at hq
      obtain ⟨y, hy, rfl⟩ := List.mem_map.mp hq
      have hxy : y = x := Option.some.inj hx
      subst hxy
      exact linspace_mem (le_of_lt hlt) hy
  · intro hge
    rw [hrow, if_neg (not_lt.mpr hge)]
  · intro t ht
    rw [hrow] at ht
    by_cases hlt : max xs xmin < xmax
    · rw [if_pos hlt] at ht
      rcases List.mem_cons.mp ht with rfl | htail
      · simp
      · split_ifs at htail with h1 h2
        · rcases List.mem_singleton.mp htail with rfl
          simp
        · exact absurd htail (List.not_mem_nil _)
        · exact absurd htail (List.not_mem_nil _)
    · rw [if_neg hlt] at ht
      exact absurd ht (List.not_mem_nil _)
  · intro t ht hreg
    rw [hrow] at ht
    by_cases hlt : max xs xmin < xmax
    · rw [if_pos hlt] at ht
      rcases List.mem_cons.mp ht with rfl | htail
      · exact absurd hreg (by simp)
      · split_ifs at htail with h1 h2
        · rcases List.mem_singleton.mp htail with rfl
          exact ⟨rfl, rfl, rfl⟩
        · exact absurd htail (List.not_mem_nil _)
        · exact absurd htail (List.not_mem_nil _)
    · rw [if_neg hlt] at ht
      exact absurd ht (List.not_mem_nil _)

/-- C5 witness at `a = b = 1` (minimum point `exp 0 = 1`), domain `[2, 3]`. -/
theorem claim_C5_witness :
    find_ncpa_minimum_log 1 1 = some 1 ∧
    (∃ rest, ncpaLogRowTraces 0 1 1 (some 2) (some 3) (some 4) false =
      ⟨0, .log, .observed, 1, 1, some (max 1 2), some 3, 300⟩ :: rest) := by
  have he : Real.exp (1 - 1 / 1 : ℝ) = 1 := by
    norm_num [Real.exp_zero]
  have hfind : find_ncpa_minimum_log 1 1 = some 1 := by
    simp only [find_ncpa_minimum_log]
    rw [if_neg (by norm_num : ¬ (1 : ℝ) ≤ 0), he, Real.log_one]
    rw [if_pos (by norm_num : (0 : ℝ) < 1 * 0 + 1)]
  have hmax : max (1 : ℝ) 2 < 3 := by
    rw [max_eq_right (by norm_num : (1 : ℝ) ≤ 2)]
    norm_num
  exact ⟨hfind, (claim_C5 0 1 1 2 3 4 false 1 hfind).1 hmax⟩

/-! ### Helper lemmas about the regex matcher -/

lemma expectChar_self (c : Char) (l : List Char) : expectChar c (c :: l) = some l := by
  simp [expectChar]

lemma expectStr_append (s rest : List Char) : expectStr s (s ++ rest) = some rest := by
  induction s with
  | nil => rfl
  | cons c cs ih => simpa [expectStr] using ih

lemma isTokenChar_not_space {c : Char} (h : isTokenChar c = true) : isSpaceChar c = false := by
  by_contra hs
  rw [Bool.not_eq_false, isSpaceChar] at hs
  simp only [Bool.or_eq_true, beq_iff_eq] at hs
  rcases hs with ((rfl | rfl) | rfl) | rfl <;> exact absurd h (by decide)

lemma takeWhile_append_all {p : Char → Bool} {t rest : List Char}
    (h : ∀ c ∈ t, p c = true) (hrest : ∀ c, rest.head? = some c → p c = false) :
    (t ++ rest).takeWhile p = t := by
  induction t with
  | nil =>
    cases rest with
    | nil => rfl
    | cons c cs =>
      rw [List.nil_append]
      exact List.takeWhile_cons_of_neg (by simp [hrest c rfl])
  | cons a t ih =>
    rw [List.cons_append, List.takeWhile_cons_of_pos (h a (List.mem_cons_self a t))]
    rw [ih (fun c hc => h c (List.mem_cons_of_mem a hc))]

lemma dropWhile_append_all {p : Char → Bool} {t rest : List Char}
    (h : ∀ c ∈ t, p c = true) (hrest : ∀ c, rest.head? = some c → p c = false) :
    (t ++ rest).dropWhile p = rest := by
  induction t with
  | nil =>
    cases rest with
    | nil => rfl
    | cons c cs =>
      rw [List.nil_append]
      exact List.dropWhile_cons_of_neg (by simp [hrest c rfl])
  | cons a t ih =>
    rw [List.cons_append, List.dropWhile_cons_of_pos (h a (List.mem_cons_self a t))]
    exact ih (fun c hc => h c (List.mem_cons_of_mem a hc))

lemma takeNum_append {t rest : List Char}
    (h : ∀ c ∈ t, isTokenChar c = true) (hn : t ≠ [])
    (hrest : ∀ c, rest.head? = some c → isTokenChar c = false) :
    takeNum (t ++ rest) = some (t, rest) := by
  cases t with
  | nil => exact absurd rfl hn
  | cons a t =>
    rw [takeNum, takeWhile_append_all h hrest, dropWhile_append_all h hrest]

/-- Dropping spaces does nothing in front of a non-space character. -/
lemma dropSpaces_cons_space (l : List Char) : dropSpaces (' ' :: l) = dropSpaces l :=
  List.dropWhile_cons_of_pos rfl

lemma dropSpaces_cons_of {c : Char} (l : List Char) (h : isSpaceChar c = false) :
    dropSpaces (c :: l) = c :: l :=
  List.dropWhile_cons_of_neg (by simp [h])

lemma dropSpaces_append_token {t : List Char} (rest : List Char)
    (h : ∀ c ∈ t, isTokenChar c = true) (hn : t ≠ []) :
    dropSpaces (t ++ rest) = t ++ rest := by
  cases t with
  | nil => exact absurd rfl hn
  | cons a l =>
    rw [List.cons_append]
    exact List.dropWhile_cons_of_neg
      (by simp [isTokenChar_not_space (h a (List.mem_cons_self a l))])

lemma dropSpaces_append_of_head {m : List Char} (rest : List Char) (hn : m ≠ [])
    (h : ∀ c, m.head? = some c → isSpaceChar c = false) :
    dropSpaces (m ++ rest) = m ++ rest := by
  cases m with
  | nil => exact absurd rfl hn
  | cons a l =>
    rw [List.cons_append]
    exact List.dropWhile_cons_of_neg (by simp [h a rfl])

/-- The full equation pattern, with single spaces standing for the `\s*`
gaps, matches at its own start position and produces exactly the two
numeric groups (the group after `+` stops at `post`, whose first character
is outside the numeric class). -/
lemma matchEqAt_pattern (mid t1 t2 post : List Char) (hmn : mid ≠ [])
    (hmh : ∀ c, mid.head? = some c → isSpaceChar c = false)
    (h1 : ∀ c ∈ t1, isTokenChar c = true) (h1n : t1 ≠ [])
    (h2 : ∀ c ∈ t2, isTokenChar c = true) (h2n : t2 ≠ [])
    (hpost : ∀ c, post.head? = some c → isTokenChar c = false) :
    matchEqAt mid ('y' :: ' ' :: '=' :: ' ' ::
        (t1 ++ ' ' :: '*' :: ' ' :: (mid ++ ' ' :: '+' :: ' ' :: (t2 ++ post)))) =
      some (t1, t2) := by
  have hr1 : ∀ c : Char,
      (' ' :: '*' :: ' ' :: (mid ++ ' ' :: '+' :: ' ' :: (t2 ++ post))).head? = some c →
        isTokenChar c = false := by
    intro c hc
    cases Option.some.inj hc
    rfl
  have htn1 := takeNum_append h1 h1n hr1
  have htn2 := takeNum_append h2 h2n hpost
  rw [matchEqAt]
  simp only [expectChar_self, Option.bind_eq_bind, Option.some_bind', Option.pure_def,
    dropSpaces_cons_space, dropSpaces_cons_of,
    show isSpaceChar '=' = false from rfl, show isSpaceChar '*' = false from rfl,
    show isSpaceChar '+' = false from rfl,
    dropSpaces_append_token _ h1 h1n, dropSpaces_append_of_head _ hmn hmh,
    dropSpaces_append_token _ h2 h2n,
    htn1, htn2, expectStr_append]

/-- `re.search` skips any prefix that contains no `y` (no match can start
there, since the pattern begins with the literal `y`). -/
lemma searchEq_append_no_y {mid pre l : List Char} (hpre : 'y' ∉ pre) :
    searchEq mid (pre ++ l) = searchEq mid l := by
  induction pre with
  | nil => rfl
  | cons c cs ih =>
    rw [List.cons_append, searchEq]
    have hcy : c ≠ 'y' := fun h => hpre (h ▸ List.mem_cons_self c cs)
    have hm : matchEqAt mid (c :: (cs ++ l)) = none := by
      rw [matchEqAt]
      rw [show expectChar 'y' (c :: (cs ++ l)) = none from by simp [expectChar, hcy]]
      rfl
    rw [hm]
    exact ih (fun h => hpre (List.mem_cons_of_mem c h))

/-- A successful anchored match at the head of the input is what
`re.search` returns. -/
lemma searchEq_of_matchEqAt {mid : List Char} {c : Char} {cs : List Char}
    {r : List Char × List Char} (h : matchEqAt mid (c :: cs) = some r) :
    searchEq mid (c :: cs) = some r := by
  rw [searchEq, h]

/-! ### Case analysis of the parser result -/

lemma parseEqList_of_search_none {mid l : List Char} (h : searchEq mid l = none) :
    parseEqList mid l = .ok none := by
  rw [parseEqList, h]

lemma parseEqList_of_bad_float {mid l t1 t2 : List Char}
    (h : searchEq mid l = some (t1, t2))
    (hf : pyFloat? t1 = none ∨ pyFloat? t2 = none) :
    parseEqList mid l = .error .valueError := by
  rcases hf with hf | hf
  · cases h2 : pyFloat? t2 <;> simp [parseEqList, h, hf, h2]
  · cases h1 : pyFloat? t1 <;> simp [parseEqList, h, h1, hf]

lemma parseEqList_of_floats {mid l t1 t2 : List Char} {a b : ℚ}
    (h : searchEq mid l = some (t1, t2))
    (h1 : pyFloat? t1 = some a) (h2 : pyFloat? t2 = some b) :
    parseEqList mid l = .ok (some (a, b)) := by
  simp [parseEqList, h, h1, h2]

/-- C1 counterexample: tokens that match the numeric pattern of the regex
but are not valid numbers ('1.2.3', '--5', a lone '-' or '.') do not make
parsing return the absent value: `float` raises `ValueError`, which
propagates out of the parser (in the app it is only caught by the
top-level generate-button handler, aborting the whole generation). -/
theorem claim_C1_counterexample :
    parse_log_equation "y = 1.2.3 * ln(x) + 5" = .error .valueError ∧
    parse_linear_equation "y = --5 * x + 3" = .error .valueError ∧
    parse_log_equation "y = - * ln(x) + 3" = .error .valueError ∧
    parse_log_equation "y = 2 * ln(x) + ." = .error .valueError :=
  ⟨rfl, rfl, rfl, rfl⟩

/-- C1 (amended): for every input string and model kind, when the regex
does not match, the parser returns the absent value and never raises; when
the regex matches, the parser returns the two numbers when both matched
groups are valid numbers, and raises `ValueError` when either group is not
a valid number (instead of returning the absent value). -/
theorem claim_C1_amended (s : String) :
    (searchEq lnxLit s.data = none → parse_log_equation s = .ok none) ∧
    (∀ t1 t2, searchEq lnxLit s.data = some (t1, t2) →
      (pyFloat? t1 = none ∨ pyFloat? t2 = none) →
      parse_log_equation s = .error .valueError) ∧
    (∀ t1 t2 a b, searchEq lnxLit s.data = some (t1, t2) →
      pyFloat? t1 = some a → pyFloat? t2 = some b →
      parse_log_equation s = .ok (some (a, b))) ∧
    (searchEq xLit s.data = none → parse_linear_equation s = .ok none) ∧
    (∀ t1 t2, searchEq xLit s.data = some (t1, t2) →
      (pyFloat? t1 = none ∨ pyFloat? t2 = none) →
      parse_linear_equation s = .error .valueError) ∧
    (∀ t1 t2 a b, searchEq xLit s.data = some (t1, t2) →
      pyFloat? t1 = some a → pyFloat? t2 = some b →
      parse_linear_equation s = .ok (some (a, b))) :=
  ⟨fun h => parseEqList_of_search_none h,
   fun _ _ h hf => parseEqList_of_bad_float h hf,
   fun _ _ _ _ h h1 h2 => parseEqList_of_floats h h1 h2,
   fun h => parseEqList_of_search_none h,
   fun _ _ h hf => parseEqList_of_bad_float h hf,
   fun _ _ _ _ h h1 h2 => parseEqList_of_floats h h1 h2⟩

/-- C1 witness: a non-matching string parses to absent; a matching string
with the invalid token '1.2.3' raises. -/
theorem claim_C1_witness :
    searchEq lnxLit "hello".data = none ∧
    parse_log_equation "hello" = .ok none ∧
    searchEq lnxLit "y = 1.2.3 * ln(x) + 5".data =
      some (['1', '.', '2', '.', '3'], ['5']) ∧
    pyFloat? ['1', '.', '2', '.', '3'] = none ∧
    parse_log_equation "y = 1.2.3 * ln(x) + 5" = .error .valueError := by
  refine ⟨rfl, (claim_C1_amended "hello").1 rfl, rfl, rfl, ?_⟩
  exact (claim_C1_amended "y = 1.2.3 * ln(x) + 5").2.1 _ _ rfl (Or.inl rfl)

/-- C10: the parsers search for the pattern as a substring, so a string
containing the pattern with arbitrary non-pattern text around it (no `y`
before it, no numeric-class character right after its last group) parses
to the embedded coefficients rather than to absent; and when the pattern
occurs twice, the first (leftmost) occurrence wins. -/
theorem claim_C10 (pre post t1 t2 : List Char) (a b : ℚ)
    (hpre : 'y' ∉ pre)
    (h1 : ∀ c ∈ t1, isTokenChar c = true) (h1n : t1 ≠ []) (ha : pyFloat? t1 = some a)
    (h2 : ∀ c ∈ t2, isTokenChar c = true) (h2n : t2 ≠ []) (hb : pyFloat? t2 = some b)
    (hpost : ∀ c, post.head? = some c → isTokenChar c = false) :
    parse_log_equation (String.mk (pre ++ 'y' :: ' ' :: '=' :: ' ' ::
        (t1 ++ ' ' :: '*' :: ' ' :: (lnxLit ++ ' ' :: '+' :: ' ' :: (t2 ++ post))))) =
      .ok (some (a, b)) ∧
    parse_linear_equation (String.mk (pre ++ 'y' :: ' ' :: '=' :: ' ' ::
        (t1 ++ ' ' :: '*' :: ' ' :: (xLit ++ ' ' :: '+' :: ' ' :: (t2 ++ post))))) =
      .ok (some (a, b)) ∧
    parse_log_equation "y = 1 * ln(x) + 2 and y = 3 * ln(x) + 4" = .ok (some (1, 2)) := by
  refine ⟨?_, ?_, rfl⟩
  · have hm := matchEqAt_pattern lnxLit t1 t2 post (by decide)
      (fun c hc => by cases Option.some.inj hc; rfl) h1 h1n h2 h2n hpost
    have hs : searchEq lnxLit (pre ++ 'y' :: ' ' :: '=' :: ' ' ::
        (t1 ++ ' ' :: '*' :: ' ' :: (lnxLit ++ ' ' :: '+' :: ' ' :: (t2 ++ post)))) =
        some (t1, t2) := by
      rw [searchEq_append_no_y hpre]
      exact searchEq_of_matchEqAt hm
    exact parseEqList_of_floats hs ha hb
  · have hm := matchEqAt_pattern xLit t1 t2 post (by decide)
      (fun c hc => by cases Option.some.inj hc; rfl) h1 h1n h2 h2n hpost
    have hs : searchEq xLit (pre ++ 'y' :: ' ' :: '=' :: ' ' ::
        (t1 ++ ' ' :: '*' :: ' ' :: (xLit ++ ' ' :: '+' :: ' ' :: (t2 ++ post)))) =
        some (t1, t2) := by
      rw [searchEq_append_no_y hpre]
      exact searchEq_of_matchEqAt hm
    exact parseEqList_of_floats hs ha hb

/-- C10 witness at the spec's example shape. -/
theorem claim_C10_witness :
    parse_log_equation "note: y = 2 * ln(x) + 3 (approx)" = .ok (some (2, 3)) ∧
    parse_linear_equation "note: y = 2 * x + 3 (approx)" = .ok (some (2, 3)) := by
  have h := claim_C10 "note: ".data " (approx)".data ['2'] ['3'] 2 3
    (by decide) (by decide) (by decide) rfl (by decide) (by decide) rfl
    (fun c hc => by cases Option.some.inj hc; rfl)
  exact ⟨h.1, h.2.1⟩

/-! ### Helper lemmas for the data-frame layer -/

lemma except_bind_ok {ε α β : Type} (a : α) (f : α → Except ε β) :
    (Except.ok a : Except ε α) >>= f = f a := rfl

lemma except_bind_err {ε α β : Type} (e : ε) (f : α → Except ε β) :
    (Except.error e : Except ε α) >>= f = Except.error e := rfl

lemma except_pure_def {ε α : Type} (a : α) : (pure a : Except ε α) = Except.ok a := rfl

lemma getCell_seller (nm : String) (c1 c2 c3 c4 c5 c6 : Cell) :
    getCell sampleCols (mkRow nm c1 c2 c3 c4 c5 c6) colSeller = .ok (.s nm) := rfl

lemma getCell_logEq (nm : String) (c1 c2 c3 c4 c5 c6 : Cell) :
    getCell sampleCols (mkRow nm c1 c2 c3 c4 c5 c6) colLogEq = .ok c1 := rfl

lemma getCell_logR2 (nm : String) (c1 c2 c3 c4 c5 c6 : Cell) :
    getCell sampleCols (mkRow nm c1 c2 c3 c4 c5 c6) colLogR2 = .ok c2 := rfl

lemma getCell_minX (nm : String) (c1 c2 c3 c4 c5 c6 : Cell) :
    getCell sampleCols (mkRow nm c1 c2 c3 c4 c5 c6) colMinX = .ok c3 := rfl

lemma getCell_maxX (nm : String) (c1 c2 c3 c4 c5 c6 : Cell) :
    getCell sampleCols (mkRow nm c1 c2 c3 c4 c5 c6) colMaxX = .ok c4 := rfl

lemma getCell_linEq (nm : String) (c1 c2 c3 c4 c5 c6 : Cell) :
    getCell sampleCols (mkRow nm c1 c2 c3 c4 c5 c6) colLinEq = .ok c5 := rfl

lemma getCell_linR2 (nm : String) (c1 c2 c3 c4 c5 c6 : Cell) :
    getCell sampleCols (mkRow nm c1 c2 c3 c4 c5 c6) colLinR2 = .ok c6 := rfl

/-- `gtBoth` selects the log branch. -/
lemma gtBoth_log : (gtBoth = gtLog ∨ gtBoth = gtBoth) = True := by
  simp

/-- `gtBoth` selects the linear branch. -/
lemma gtBoth_lin : (gtBoth = gtLin ∨ gtBoth = gtBoth) = True := by
  simp

/-- `gtLog` selects the log branch only. -/
lemma gtLog_log : (gtLog = gtLog ∨ gtLog = gtBoth) = True := by
  simp

lemma gtLog_not_lin : (gtLog = gtLin ∨ gtLog = gtBoth) = False := by
  simp only [eq_iff_iff, iff_false]
  decide

/-- C4 counterexample: a row whose logarithmic equation cell is empty (the
float NaN after reading) does not contribute its linear series: `re.search`
on the NaN raises `TypeError`, aborting the entire chart generation. -/
theorem claim_C4_counterexample :
    generate_graph ⟨sampleCols,
        [mkRow "A" .nan (.num 1) (.num 1) (.num 10) (.s "y = 1 * x + 2") (.num 1)]⟩
      gtBoth true 1 = .error .typeError := rfl

/-- C4 (amended): rows whose logarithmic equation cell holds a string that
does not match the pattern still produce their linear series, for every row
and without disturbing the other rows; only an empty (NaN) equation cell is
fatal. -/
theorem claim_C4_amended (n1 n2 s1 s2 u1 u2 : String) (a1 b1 a2 b2 m1 x1 m2 x2 : ℚ)
    (r1 r2 r3 r4 : Cell)
    (hs1 : parse_log_equation s1 = .ok none)
    (hs2 : parse_log_equation s2 = .ok none)
    (hu1 : parse_linear_equation u1 = .ok (some (a1, b1)))
    (hu2 : parse_linear_equation u2 = .ok (some (a2, b2))) :
    generate_graph ⟨sampleCols,
        [mkRow n1 (.s s1) r1 (.num m1) (.num x1) (.s u1) r2,
         mkRow n2 (.s s2) r3 (.num m2) (.num x2) (.s u2) r4]⟩ gtBoth false 1 =
      .ok [⟨0, .linear, .observed, a1, b1, some m1, some x1, 300⟩,
           ⟨1, .linear, .observed, a2, b2, some m2, some x2, 300⟩] := by
  have hs1' : parseCellEq lnxLit (Cell.s s1) = .ok none := hs1
  have hs2' : parseCellEq lnxLit (Cell.s s2) = .ok none := hs2
  have hu1' : parseCellEq xLit (Cell.s u1) = .ok (some (a1, b1)) := hu1
  have hu2' : parseCellEq xLit (Cell.s u2) = .ok (some (a2, b2)) := hu2
  simp only [generate_graph, colFloats, processRows, processRow,
    getCell_seller, getCell_logEq, getCell_logR2, getCell_minX, getCell_maxX,
    getCell_linEq, getCell_linR2, cellFloat, except_bind_ok,
    hs1', hs2', hu1', hu2', gtBoth_log, gtBoth_lin, or_true, if_true,
    except_pure_def, uuRowTraces, Bool.false_eq_true, if_false, zero_add,
    List.append_nil, List.nil_append, List.cons_append]

/-- C4 witness: two rows with the non-matching log equation '-' and valid
linear equations both contribute their linear series. -/
theorem claim_C4_witness :
    parse_log_equation "-" = .ok none ∧
    parse_linear_equation "y = 1 * x + 2" = .ok (some (1, 2)) ∧
    generate_graph ⟨sampleCols,
        [mkRow "A" (.s "-") .nan (.num 1) (.num 10) (.s "y = 1 * x + 2") .nan,
         mkRow "B" (.s "-") .nan (.num 2) (.num 20) (.s "y = 3 * x + 4") .nan]⟩
      gtBoth false 1 =
      .ok [⟨0, .linear, .observed, 1, 2, some 1, some 10, 300⟩,
           ⟨1, .linear, .observed, 3, 4, some 2, some 20, 300⟩] := by
  refine ⟨rfl, rfl, ?_⟩
  exact claim_C4_amended "A" "B" "-" "-" "y = 1 * x + 2" "y = 3 * x + 4"
    1 2 3 4 1 10 2 20 .nan .nan .nan .nan rfl rfl rfl rfl

/-- C7 counterexample: a log-model row with `xMin = -1 ≤ 0` does not enter
any error state: generation succeeds, the observed series for the row is
emitted, and its first sample (at x = -1) has an undefined y value. -/
theorem claim_C7_counterexample :
    generate_graph ⟨sampleCols,
        [mkRow "A" (.s "y = 1 * ln(x) + 0") .nan (.num (-1)) (.num 2) .nan .nan]⟩
      gtLog false 1 =
      .ok [⟨0, .log, .observed, 1, 0, some (-1), some 2, 300⟩] ∧
    (UUTrace.points ⟨0, .log, .observed, 1, 0, some (-1), some 2, 300⟩).head? =
      some (some (-1), none) := by
  constructor
  · rfl
  · have hp : UUTrace.points ⟨0, .log, .observed, 1, 0, some (-1), some 2, 300⟩ =
        (uuLogSeries ((1 : ℚ) : ℝ) ((0 : ℚ) : ℝ) (((-1 : ℚ)) : ℝ) ((2 : ℚ) : ℝ) 300).map
          (fun (p : ℝ × Option ℝ) => (some p.1, p.2)) := rfl
    have hlo : (((-1 : ℚ)) : ℝ) = -1 := by push_cast; ring
    have huu : uuLog (1 : ℝ) 0 (-1) = none := by
      rw [uuLog, npLog, if_neg (by norm_num)]
      rfl
    rw [hp, List.head?_map, uuLogSeries, List.head?_map,
      linspace_head _ _ _ (by norm_num)]
    simp [huu, hlo]

/-- C7 (amended): a log-model row whose `xMin` is not positive is not an
error: generation succeeds and the observed log series is emitted as usual,
but every sample at an x ≤ 0 carries an undefined (NaN or infinite) y. -/
theorem claim_C7_amended (nm s : String) (a b mn mx : ℚ) (r2 lc rc : Cell)
    (hs : parse_log_equation s = .ok (some (a, b))) :
    generate_graph ⟨sampleCols, [mkRow nm (.s s) r2 (.num mn) (.num mx) lc rc]⟩
      gtLog false 1 =
      .ok [⟨0, .log, .observed, a, b, some mn, some mx, 300⟩] ∧
    (∀ p ∈ UUTrace.points ⟨0, .log, .observed, a, b, some mn, some mx, 300⟩,
      ∀ x : ℝ, p.1 = some x → x ≤ 0 → p.2 = none) := by
  constructor
  · have hs' : parseCellEq lnxLit (Cell.s s) = .ok (some (a, b)) := hs
    simp only [generate_graph, colFloats, processRows, processRow,
      getCell_seller, getCell_logEq, getCell_logR2, getCell_minX, getCell_maxX,
      getCell_linEq, getCell_linR2, cellFloat, except_bind_ok, except_pure_def,
      hs', gtLog_log, gtLog_not_lin, or_true, true_or, if_true, if_false,
      uuRowTraces, Bool.false_eq_true,
      List.append_nil, List.nil_append, List.cons_append]
  · intro p hp x hx hx0
    have hp' : p ∈ (uuLogSeries ((a : ℚ) : ℝ) ((b : ℚ) : ℝ) ((mn : ℚ) : ℝ) ((mx : ℚ) : ℝ) 300).map
        (fun (q : ℝ × Option ℝ) => (some q.1, q.2)) := hp
    obtain ⟨q, hq, rfl⟩ := List.mem_map.mp hp'
    rw [uuLogSeries] at hq
    obtain ⟨y, _, rfl⟩ := List.mem_map.mp hq
    have hyx : y = x := Option.some.inj hx
    subst hyx
    show uuLog _ _ y = none
    rw [uuLog, npLog, if_neg (not_lt.mpr hx0)]
    rfl

/-- C7 witness at the counterexample's row shape. -/
theorem claim_C7_witness :
    parse_log_equation "y = 1 * ln(x) + 0" = .ok (some (1, 0)) ∧
    generate_graph ⟨sampleCols,
        [mkRow "B" (.s "y = 1 * ln(x) + 0") .nan (.num (-3)) (.num 5) .nan .nan]⟩
      gtLog false 1 =
      .ok [⟨0, .log, .observed, 1, 0, some (-3), some 5, 300⟩] := by
  refine ⟨rfl, ?_⟩
  exact (claim_C7_amended "B" "y = 1 * ln(x) + 0" 1 0 (-3) 5 .nan .nan .nan rfl).1

/-- C3 counterexample: with extrapolation ratio 1.0 and two segments whose
observed maxima differ (10 and 20), the first segment still receives an
ExtrapolatedHigh trace, over `[10, 20]`: the code compares each segment's
`x_max` against the whole table's maximum, not against its own. -/
theorem claim_C3_counterexample :
    generate_graph ⟨sampleCols,
        [mkRow "A" (.s "y = 1 * ln(x) + 2") .nan (.num 1) (.num 10) .nan .nan,
         mkRow "B" (.s "y = 3 * ln(x) + 4") .nan (.num 1) (.num 20) .nan .nan]⟩
      gtLog true 1 =
      .ok [⟨0, .log, .observed, 1, 2, some 1, some 10, 300⟩,
           ⟨0, .log, .extrapHigh, 1, 2, some 10, some 20, 100⟩,
           ⟨1, .log, .observed, 3, 4, some 1, some 20, 300⟩] := by
  have hp1 : parseCellEq lnxLit (Cell.s "y = 1 * ln(x) + 2") = .ok (some (1, 2)) := rfl
  have hp2 : parseCellEq lnxLit (Cell.s "y = 3 * ln(x) + 4") = .ok (some (3, 4)) := rfl
  have hmul : oMul (nanMax [some 10, some 20]) 1 = some 20 := by
    simp only [nanMax, nanMax2, List.foldl, oMul, Option.map_some', mul_one]
    rw [max_eq_right (by norm_num : (10 : ℚ) ≤ 20)]
  have hmin : nanMin [some 1, some 1] = some (1 : ℚ) := by
    simp [nanMin, nanMin2, List.foldl]
  have hlow : oLt (some (1 : ℚ)) (some 1) = false := by
    simp [oLt]
  have hh1 : oLt (some (10 : ℚ)) (some 20) = true := by
    simp only [oLt, decide_eq_true_eq]
    norm_num
  have hh2 : oLt (some (20 : ℚ)) (some 20) = false := by
    simp [oLt]
  simp only [generate_graph, colFloats, processRows, processRow,
    getCell_seller, getCell_logEq, getCell_logR2, getCell_minX, getCell_maxX,
    getCell_linEq, getCell_linR2, cellFloat, except_bind_ok, except_pure_def,
    hp1, hp2, hmul, hmin, hlow, hh1, hh2,
    gtLog_log, gtLog_not_lin, or_true, true_or, if_true, if_false,
    uuRowTraces, Bool.false_eq_true, zero_add,
    List.append_nil, List.nil_append, List.cons_append]

/-- C3 (amended): with extrapolation ratio 1.0, a segment whose `x_max`
equals the table-wide maximum gets no ExtrapolatedHigh trace, but every
segment with a smaller `x_max` still gets one, up to the global maximum. -/
theorem claim_C3_amended (n1 n2 s1 s2 : String) (a1 b1 a2 b2 m x1 x2 : ℚ)
    (r1 r2 l1 l2 q1 q2 : Cell)
    (h1 : parse_log_equation s1 = .ok (some (a1, b1)))
    (h2 : parse_log_equation s2 = .ok (some (a2, b2)))
    (hx : x1 < x2) :
    generate_graph ⟨sampleCols,
        [mkRow n1 (.s s1) r1 (.num m) (.num x1) l1 q1,
         mkRow n2 (.s s2) r2 (.num m) (.num x2) l2 q2]⟩ gtLog true 1 =
      .ok [⟨0, .log, .observed, a1, b1, some m, some x1, 300⟩,
           ⟨0, .log, .extrapHigh, a1, b1, some x1, some x2, 100⟩,
           ⟨1, .log, .observed, a2, b2, some m, some x2, 300⟩] := by
  have h1' : parseCellEq lnxLit (Cell.s s1) = .ok (some (a1, b1)) := h1
  have h2' : parseCellEq lnxLit (Cell.s s2) = .ok (some (a2, b2)) := h2
  have hmul : oMul (nanMax [some x1, some x2]) 1 = some x2 := by
    simp only [nanMax, nanMax2, List.foldl, oMul, Option.map_some', mul_one]
    rw [max_eq_right (le_of_lt hx)]
  have hmin : nanMin [some m, some m] = some m := by
    simp [nanMin, nanMin2, List.foldl]
  have hlow : oLt (some m) (some m) = false := by
    simp [oLt]
  have hh1 : oLt (some x1) (some x2) = true := by
    simp only [oLt, decide_eq_true_eq]
    exact hx
  have hh2 : oLt (some x2) (some x2) = false := by
    simp [oLt]
  simp only [generate_graph, colFloats, processRows, processRow,
    getCell_seller, getCell_logEq, getCell_logR2, getCell_minX, getCell_maxX,
    getCell_linEq, getCell_linR2, cellFloat, except_bind_ok, except_pure_def,
    h1', h2', hmul, hmin, hlow, hh1, hh2,
    gtLog_log, gtLog_not_lin, or_true, true_or, if_true, if_false,
    uuRowTraces, Bool.false_eq_true, zero_add,
    List.append_nil, List.nil_append, List.cons_append]

/-- C3 witness at concrete maxima 10 < 20, ratio 1.0. -/
theorem claim_C3_witness :
    parse_log_equation "y = 5 * ln(x) + 6" = .ok (some (5, 6)) ∧
    parse_log_equation "y = 7 * ln(x) + 8" = .ok (some (7, 8)) ∧
    (10 : ℚ) < 20 ∧
    generate_graph ⟨sampleCols,
        [mkRow "A" (.s "y = 5 * ln(x) + 6") .nan (.num 3) (.num 10) .nan .nan,
         mkRow "B" (.s "y = 7 * ln(x) + 8") .nan (.num 3) (.num 20) .nan .nan]⟩
      gtLog true 1 =
      .ok [⟨0, .log, .observed, 5, 6, some 3, some 10, 300⟩,
           ⟨0, .log, .extrapHigh, 5, 6, some 10, some 20, 100⟩,
           ⟨1, .log, .observed, 7, 8, some 3, some 20, 300⟩] := by
  refine ⟨rfl, rfl, by norm_num, ?_⟩
  exact claim_C3_amended "A" "B" "y = 5 * ln(x) + 6" "y = 7 * ln(x) + 8"
    5 6 7 8 3 10 20 .nan .nan .nan .nan .nan .nan rfl rfl (by norm_num)

/-! ### Helper lemmas for the button handler -/

lemma findIdx_of_mem {l : List String} {c : String} (h : c ∈ l) :
    ∃ j, l.findIdx? (fun x => x == c) = some j := by
  induction l with
  | nil => cases h
  | cons a l ih =>
    by_cases hac : (a == c) = true
    · exact ⟨0, by simp [List.findIdx?_cons, hac]⟩
    · have hcl : c ∈ l := by
        rcases List.mem_cons.mp h with rfl | hm
        · exact absurd (beq_self_eq_true c) hac
        · exact hm
      obtain ⟨j, hj⟩ := ih hcl
      refine ⟨j + 1, ?_⟩
      simp only [List.findIdx?_cons, hac, Bool.false_eq_true, if_false]
      simp [hj]

lemma findIdx_of_not_mem {l : List String} {c : String} (h : c ∉ l) :
    l.findIdx? (fun x => x == c) = none := by
  induction l with
  | nil => rfl
  | cons a l ih =>
    have hac : (a == c) = false := by
      rw [beq_eq_false_iff_ne]
      exact fun hh => h (hh ▸ List.mem_cons_self a l)
    have hl := ih (fun hm => h (List.mem_cons_of_mem a hm))
    simp only [List.findIdx?_cons, hac, Bool.false_eq_true, if_false]
    simp [hl]

lemma to_numeric_col_ok {df : Df} {c : String} (h : c ∈ df.cols) :
    ∃ d, to_numeric_col df c = .ok d ∧ d.cols = df.cols := by
  obtain ⟨j, hj⟩ := findIdx_of_mem h
  rw [to_numeric_col, hj]
  exact ⟨_, rfl, rfl⟩

lemma to_numeric_col_absent {df : Df} {c : String} (h : c ∉ df.cols) :
    to_numeric_col df c = .error .keyError := by
  rw [to_numeric_col, findIdx_of_not_mem h]

/-- C8 counterexample: a table with exactly the three required columns (all
optional columns absent) does not generate charts: the unconditional
`to_numeric` coercion of the optional column `決定係数(対数)` raises
`KeyError`, and the top-level handler reports a generic error instead. -/
theorem claim_C8_counterexample :
    handler ⟨[colSeller, colMinX, colMaxX], [[.s "A", .num 1, .num 10]]⟩ gtLog true 1 =
      .errorCaught .keyError := rfl

/-- C8 (amended): for every table that has the three required columns but
lacks the optional column `決定係数(対数)`, chart generation is aborted by
a `KeyError` caught at the top level; absence of optional columns is an
error, their cell contents are never reached. -/
theorem claim_C8_amended (df : Df) (gt : String) (se : Bool) (ratio : ℚ)
    (hreq : ∀ c ∈ required_cols, c ∈ df.cols)
    (habs : colLogR2 ∉ df.cols) :
    handler df gt se ratio = .errorCaught .keyError := by
  rw [handler]
  have hmiss : required_cols.filter (fun c => !(df.cols.contains c)) = [] := by
    rw [List.filter_eq_nil_iff]
    intro c hc
    simp [hreq c hc]
  rw [if_neg (not_ne_iff.mpr hmiss)]
  obtain ⟨d1, hd1, hc1⟩ := to_numeric_col_ok (hreq colMinX (by decide))
  obtain ⟨d2, hd2, hc2⟩ := to_numeric_col_ok (show colMaxX ∈ d1.cols from hc1 ▸ hreq colMaxX (by decide))
  have habs2 : colLogR2 ∉ d2.cols := by
    rw [hc2, hc1]
    exact habs
  have hd3 : to_numeric_col d2 colLogR2 = .error .keyError := to_numeric_col_absent habs2
  rw [hd1, except_bind_ok, hd2, except_bind_ok, hd3, except_bind_err]

/-- C8 witness: the required-columns-only table satisfies the amended
hypotheses. -/
theorem claim_C8_witness :
    (∀ c ∈ required_cols, c ∈ [colSeller, colMinX, colMaxX]) ∧
    colLogR2 ∉ [colSeller, colMinX, colMaxX] ∧
    handler ⟨[colSeller, colMinX, colMaxX], [[.s "B", .num 2, .num 5]]⟩ gtBoth false 1 =
      .errorCaught .keyError := by
  refine ⟨by decide, by decide, ?_⟩
  exact claim_C8_amended ⟨[colSeller, colMinX, colMaxX], [[.s "B", .num 2, .num 5]]⟩
    gtBoth false 1 (by decide) (by decide)
